import Mathlib

/-!
Shallow embedding of `veusz/document/dataset_filtered.py`: the dataset
filter generator (`DatasetFilterGenerator`), the derived filtered dataset
(`DatasetFiltered`) and the undoable operation (`OperationDatasetsFilter`),
together with the document interface they consume.

Numeric array values are modelled by `NumV`: a distinguished NaN element
plus an opaque integer payload (the claims only move values around and
write NaN sentinels; no floating-point arithmetic is performed).
-/

/-- A numeric array element: either the NaN sentinel (written by
`replaceblanks` filtering) or an ordinary value, whose payload is opaque. -/
inductive NumV
  | nan
  | val (z : Int)
deriving DecidableEq

/-- `astype(N.bool)` on one element: 0 is falsy, every other value —
including NaN — is truthy. -/
def NumV.toBool : NumV → Bool
  | .nan => true
  | .val z => z != 0

/-- A 1-dimensional numeric dataset: `columns = ('data','serr','perr','nerr')`;
the error-bar columns may be `None`. -/
structure NumericDS where
  data : List NumV
  serr : Option (List NumV)
  perr : Option (List NumV)
  nerr : Option (List NumV)
deriving DecidableEq

/-- A 1-dimensional text dataset: a single list-of-strings column. -/
structure TextDS where
  data : List String
deriving DecidableEq

/-- A dataset as seen through the document: a 1-d numeric dataset, a 1-d text
dataset, or some other dataset (`other dims datatype dlen` models datasets of
another dimensionality or of an unsupported datatype such as dates; `dlen` is
`len(ds.data)`). -/
inductive DatasetV
  | numeric (nd : NumericDS)
  | text (td : TextDS)
  | other (dims : Nat) (datatype : String) (dlen : Nat)
deriving DecidableEq

/-- `ds.dimensions`. -/
def DatasetV.dimensions : DatasetV → Nat
  | .numeric _ => 1
  | .text _ => 1
  | .other d _ _ => d

/-- `ds.datatype`. -/
def DatasetV.datatype : DatasetV → String
  | .numeric _ => "numeric"
  | .text _ => "text"
  | .other _ t _ => t

/-- `len(ds.data)`. -/
def DatasetV.dsLen : DatasetV → Nat
  | .numeric nd => nd.data.length
  | .text td => td.data.length
  | .other _ _ n => n

/-- `d.data` of a numeric evaluation result (defaults to `[]` on the other
variants, which the caller has already excluded by checking `d.datatype`). -/
def DatasetV.numDataD : DatasetV → List NumV
  | .numeric nd => nd.data
  | _ => []

/-- A Python exception escaping the embedded code. -/
inductive PyErr
  | nameError (n : String)
deriving DecidableEq

/-- `DatasetFilterGenerator` state: construction parameters plus the mutable
cache (`changeset`, initially -1, and `outdatasets`, a dict keyed by source
name).  `gid` stands for the object's identity (Python `is`), and `prefx` /
`suffx` embed the `prefix` / `suffix` attributes. -/
structure GenState where
  gid : Nat
  changeset : Int
  inexpr : String
  indatasets : List String
  prefx : String
  suffx : String
  invert : Bool
  replaceblanks : Bool
  outdatasets : List (String × DatasetV)
deriving DecidableEq

/-- The document interface the generator consumes: the version counter
`doc.changeset`, the external expression evaluator, and dataset lookup.
`eval` is modelled from the spec: section 6 gives the collaborator interface
`evalDatasetExpression(document, exprString) -> Dataset|None` (the evaluator's
own code is outside this component); `lookup` is `doc.data.get(name)`. -/
structure GenDoc where
  changeset : Int
  eval : String → Option DatasetV
  lookup : String → Option DatasetV

/-- One column pass of `filterNumeric`: `filtered = N.array(data[:minlen])`
with `minlen = len(filterarr)`; then either NaN is written where the filter is
false (`replaceblanks`) or the true positions are selected. -/
def npFilterMask (replaceblanks : Bool) (filterarr : List Bool) (d : List NumV) : List NumV :=
  let t := d.take filterarr.length
  if replaceblanks then
    t.zipWith (fun v f => if f then v else NumV.nan) filterarr
  else
    (t.zip filterarr).filterMap (fun p => if p.2 then some p.1 else none)

/-- `DatasetFilterGenerator.filterNumeric`: apply the column pass to every
column (a `None` column stays `None`), then `returnCopyWithNewData`. -/
def filterNumeric (replaceblanks : Bool) (nd : NumericDS) (filterarr : List Bool) : NumericDS :=
  { data := npFilterMask replaceblanks filterarr nd.data
    serr := nd.serr.map (npFilterMask replaceblanks filterarr)
    perr := nd.perr.map (npFilterMask replaceblanks filterarr)
    nerr := nd.nerr.map (npFilterMask replaceblanks filterarr) }

/-- `DatasetFilterGenerator.filterText`: the source body zips `filterarr`
with the local name `data`, but `data` is never assigned (the parameter is
`ds`), so evaluating either list comprehension raises
`NameError: name 'data' is not defined` on every call. -/
def filterText (replaceblanks : Bool) (ds : TextDS) (filterarr : List Bool) : Except PyErr TextDS :=
  if replaceblanks then
    Except.error (PyErr.nameError "data")
  else
    Except.error (PyErr.nameError "data")

/-- Log text of `"Invalid number of dimensions in filter expression '%s'\n"`. -/
def msgInvalidDims (expr : String) : String :=
  "Invalid number of dimensions in filter expression '" ++ expr ++ "'\n"

/-- Log text of `"Input filter expression non-numeric: '%s'\n"`. -/
def msgNonNumeric (expr : String) : String :=
  "Input filter expression non-numeric: '" ++ expr ++ "'\n"

/-- Log text of `"Filtered dataset '%s' has more than 1 dimension\n"` (also
emitted when the dataset is missing). -/
def msgBadDataset (name : String) : String :=
  "Filtered dataset '" ++ name ++ "' has more than 1 dimension\n"

/-- Log text of `"Could not filter dataset '%s'\n"`. -/
def msgCouldNot (name : String) : String :=
  "Could not filter dataset '" ++ name ++ "'\n"

/-- Outcome of `checkUpdate`: the generator state after the call, the
messages passed to `doc.log`, and the exception that escaped, if any (on an
exception the mutations already performed are kept, as in Python). -/
structure GenResult where
  gen : GenState
  logs : List String
  err : Option PyErr
deriving DecidableEq

/-- Insert-or-update on an association list, preserving Python dict
semantics: an existing key keeps its position, a new key is appended. -/
def assocSet {α : Type} : List (String × α) → String → α → List (String × α)
  | [], key, v => [(key, v)]
  | (k, w) :: rest, key, v =>
    if k = key then (key, v) :: rest else (k, w) :: assocSet rest key v

/-- Lookup on an association list (`dict.get`). -/
def assocGet {α : Type} : List (String × α) → String → Option α
  | [], _ => none
  | (k, v) :: rest, key => if k = key then some v else assocGet rest key

/-- Delete on an association list (`del d[key]`). -/
def assocErase {α : Type} : List (String × α) → String → List (String × α)
  | [], _ => []
  | (k, w) :: rest, key => if k = key then rest else (k, w) :: assocErase rest key

/-- The per-source-name loop of `checkUpdate` (lines 107-124): missing or
non-1-dimensional datasets log and are skipped; numeric datasets are filtered
with the filter array chopped to `min(len(ds.data), len(filterarr))`; text
datasets call `filterText`, whose `NameError` escapes, aborting the loop with
the mutations so far kept; other datatypes log and are skipped. -/
def filterLoop (doc : GenDoc) (filterarr : List Bool) (g : GenState) (logs : List String) :
    List String → GenResult
  | [] => ⟨g, logs, none⟩
  | name :: rest =>
    match doc.lookup name with
    | none => filterLoop doc filterarr g (logs ++ [msgBadDataset name]) rest
    | some ds =>
      if ds.dimensions ≠ 1 then
        filterLoop doc filterarr g (logs ++ [msgBadDataset name]) rest
      else
        let chop := filterarr.take (min ds.dsLen filterarr.length)
        match ds with
        | .numeric nd =>
          filterLoop doc filterarr
            { g with outdatasets :=
                assocSet g.outdatasets name (DatasetV.numeric (filterNumeric g.replaceblanks nd chop)) }
            logs rest
        | .text td =>
          match filterText g.replaceblanks td chop with
          | .error e => ⟨g, logs, some e⟩
          | .ok td' =>
            filterLoop doc filterarr
              { g with outdatasets := assocSet g.outdatasets name (DatasetV.text td') }
              logs rest
        | .other _ _ _ =>
          filterLoop doc filterarr g (logs ++ [msgCouldNot name]) rest

/-- The body of `checkUpdate` past the cache check: clear `outdatasets`,
evaluate the filter expression, validate it, build the boolean filter array
(inverting it if requested) and run the filtering loop. -/
def recompute (g : GenState) (doc : GenDoc) : GenResult :=
  let g := { g with outdatasets := [] }
  match doc.eval g.inexpr with
  | none => ⟨g, [], none⟩
  | some d =>
    if d.dimensions ≠ 1 then ⟨g, [msgInvalidDims g.inexpr], none⟩
    else if d.datatype ≠ "numeric" then ⟨g, [msgNonNumeric g.inexpr], none⟩
    else
      let filterarr := d.numDataD.map NumV.toBool
      let filterarr := if g.invert then filterarr.map (!·) else filterarr
      filterLoop doc filterarr g [] g.indatasets

/-- `DatasetFilterGenerator.checkUpdate`: a no-op when `doc.changeset`
equals the cached changeset, otherwise record the new changeset and
recompute. -/
def checkUpdate (g : GenState) (doc : GenDoc) : GenResult :=
  if doc.changeset = g.changeset then ⟨g, [], none⟩
  else recompute { g with changeset := doc.changeset } doc

/-- `DatasetFiltered` state: the shared generator is referred to by its
identity `genId`; `namein` is the tracked source name; `changeset` (initially
-1) and `internalds` (initially Python `None`) are the local cache. -/
structure FilteredState where
  genId : Nat
  namein : String
  changeset : Int
  internalds : Option DatasetV
deriving DecidableEq

/-- `Dataset(data=[])`: the empty dataset a derived dataset binds to when the
generator produced nothing for its name. -/
def emptyDataset : DatasetV :=
  DatasetV.numeric { data := [], serr := none, perr := none, nerr := none }

/-- Outcome of a `DatasetFiltered` method: the facade state, the (explicitly
threaded) shared generator state, log messages and any escaped exception. -/
structure FilteredStep where
  fs : FilteredState
  gen : GenState
  logs : List String
  err : Option PyErr
deriving DecidableEq

/-- `DatasetFiltered._checkUpdate`: when the local changeset differs from the
document's, delegate to the generator's `checkUpdate`, record the document
changeset and re-bind `internalds` to the generator's output for `namein`,
or to the empty dataset when there is none.  An exception raised inside the
generator escapes before the local cache is touched. -/
def fCheckUpdate (fs : FilteredState) (gen : GenState) (doc : GenDoc) : FilteredStep :=
  if doc.changeset ≠ fs.changeset then
    let r := checkUpdate gen doc
    match r.err with
    | some e => ⟨fs, r.gen, r.logs, some e⟩
    | none =>
      let internal :=
        match assocGet r.gen.outdatasets fs.namein with
        | none => emptyDataset
        | some ds => ds
      ⟨{ fs with changeset := doc.changeset, internalds := some internal }, r.gen, r.logs, none⟩
  else ⟨fs, gen, [], none⟩

/-- `DatasetFiltered.__getattr__`: every attribute read first runs
`_checkUpdate`, then resolves the attribute on `_internalds`; the second
component is the internal dataset the read is served from (`none` when an
exception escaped instead). -/
def fGetattrDS (fs : FilteredState) (gen : GenState) (doc : GenDoc) :
    FilteredStep × Option DatasetV :=
  let st := fCheckUpdate fs gen doc
  (st, if st.err.isSome then none else st.fs.internalds)

/-- An entry of `document.data`: a plain (source) dataset or a
`DatasetFiltered` facade. -/
inductive DocEntry
  | plain (d : DatasetV)
  | filtered (fs : FilteredState)
deriving DecidableEq

/-- The document as the operation sees it: the version counter and the
name → dataset collection (keys unique, insertion-ordered like a Python
dict). -/
structure Doc where
  changeset : Int
  data : List (String × DocEntry)
deriving DecidableEq

/-- `doc.data.get(name)`. -/
def Doc.getData (doc : Doc) (name : String) : Option DocEntry :=
  assocGet doc.data name

/-- `doc.setData(name, ds)`: bind the name and bump the version counter. -/
def Doc.setData (doc : Doc) (name : String) (e : DocEntry) : Doc :=
  ⟨doc.changeset + 1, assocSet doc.data name e⟩

/-- `doc.deleteData(name)`: remove the name and bump the version counter. -/
def Doc.deleteData (doc : Doc) (name : String) : Doc :=
  ⟨doc.changeset + 1, assocErase doc.data name⟩

/-- `OperationDatasetsFilter` state: the construction parameters and the
undo map `olddatasets` recorded by `do` (insertion-ordered). -/
structure OpState where
  inexpr : String
  indatasets : List String
  prefx : String
  suffx : String
  invert : Bool
  replaceblanks : Bool
  olddatasets : List (String × Option DocEntry)
deriving DecidableEq

/-- `OperationDatasetsFilter.__init__`: raises
`ValueError("Prefix and/or suffix must be given")` when both `prefix` and
`suffix` are empty (Python `not s` on a string tests emptiness), otherwise
stores the parameters. -/
def mkOperation (inexpr : String) (indatasets : List String) (prefx suffx : String)
    (invert replaceblanks : Bool) : Except String OpState :=
  if prefx = "" ∧ suffx = "" then
    Except.error "Prefix and/or suffix must be given"
  else
    Except.ok
      { inexpr := inexpr, indatasets := indatasets, prefx := prefx, suffx := suffx,
        invert := invert, replaceblanks := replaceblanks, olddatasets := [] }

/-- Constructing the operation inside a program state holding the document:
`__init__` neither reads nor writes the document, so the document component
is returned unchanged. -/
def constructOp (doc : Doc) (inexpr : String) (indatasets : List String)
    (prefx suffx : String) (invert replaceblanks : Bool) :
    Except String OpState × Doc :=
  (mkOperation inexpr indatasets prefx suffx invert replaceblanks, doc)

/-- The loop of `OperationDatasetsFilter.do`: for each input name, record the
current occupant of `prefix+name+suffix` in `olddatasets`, then bind a fresh
`DatasetFiltered` under that output name. -/
def doLoop (gid : Nat) (prefx suffx : String) :
    List String → List (String × Option DocEntry) → Doc →
      List (String × Option DocEntry) × Doc
  | [], old, doc => (old, doc)
  | name :: rest, old, doc =>
    let outname := prefx ++ name ++ suffx
    doLoop gid prefx suffx rest
      (assocSet old outname (doc.getData outname))
      (doc.setData outname (DocEntry.filtered ⟨gid, name, -1, none⟩))

/-- Outcome of `OperationDatasetsFilter.do`: the operation state (now holding
the undo map), the mutated document, the freshly built generator, and the
value `do` returns — the generator's `outdatasets`. -/
structure DoResult where
  op : OpState
  doc : Doc
  gen : GenState
  returned : List (String × DatasetV)
deriving DecidableEq

/-- `OperationDatasetsFilter.do`: build one fresh generator (identity `gid`)
from the operation's parameters, run the binding loop, and return
`gen.outdatasets`. -/
def opDo (op : OpState) (gid : Nat) (doc : Doc) : DoResult :=
  let gen : GenState :=
    ⟨gid, -1, op.inexpr, op.indatasets, op.prefx, op.suffx, op.invert, op.replaceblanks, []⟩
  let r := doLoop gid op.prefx op.suffx op.indatasets [] doc
  ⟨{ op with olddatasets := r.1 }, r.2, gen, gen.outdatasets⟩

/-- One `undo` step: restore the recorded occupant, or delete the output name
when none was recorded. -/
def restoreOne (doc : Doc) (name : String) : Option DocEntry → Doc
  | none => doc.deleteData name
  | some v => doc.setData name v

/-- `OperationDatasetsFilter.undo`: replay `olddatasets` in insertion order. -/
def opUndo (op : OpState) (doc : Doc) : Doc :=
  op.olddatasets.foldl (fun d p => restoreOne d p.1 p.2) doc

/-- Python `repr` of a string without quotes, backslashes or control
characters: the text between single quotes. -/
def pyReprStr (s : String) : String := "'" ++ s ++ "'"

/-- Python `repr` of a list of such strings: `['a', 'b']`. -/
def pyReprList (l : List String) : String :=
  "[" ++ String.intercalate ", " (l.map pyReprStr) ++ "]"

/-- Lexicographic order on character lists by code point — Python's `<` on
strings. -/
def charListLt : List Char → List Char → Bool
  | [], [] => false
  | [], _ :: _ => true
  | _ :: _, [] => false
  | a :: as, b :: bs =>
    if a.toNat < b.toNat then true
    else if b.toNat < a.toNat then false
    else charListLt as bs

/-- Python's `<` on strings. -/
def strLt (a b : String) : Bool := charListLt a.data b.data

/-- Stable insertion of one document entry into a key-sorted list. -/
def insertSorted (p : String × DocEntry) :
    List (String × DocEntry) → List (String × DocEntry)
  | [] => [p]
  | q :: rest => if strLt q.1 p.1 then q :: insertSorted p rest else p :: q :: rest

/-- `sorted(doc.data.items())`: the document collection in sorted name
order. -/
def sortByKey (l : List (String × DocEntry)) : List (String × DocEntry) :=
  l.foldr insertSorted []

/-- `getattr(entry, "generator", None) is gen`: whether a document entry is a
`DatasetFiltered` bound to the generator with identity `gid` (plain datasets
have no `generator` attribute). -/
def isBoundTo (gid : Nat) : DocEntry → Bool
  | .filtered fs => decide (fs.genId = gid)
  | .plain _ => false

/-- The name-collection loop of `DatasetFilterGenerator.saveToFile`: walk the
document in sorted name order and collect `ds.namein` of every dataset bound
to this generator. -/
def boundNameins (gid : Nat) : List (String × DocEntry) → List String
  | [] => []
  | (_, e) :: rest =>
    match e with
    | .filtered fs =>
      if fs.genId = gid then fs.namein :: boundNameins gid rest
      else boundNameins gid rest
    | .plain _ => boundNameins gid rest

/-- `DatasetFilterGenerator.saveToFile`: the single emitted reconstruction
statement — the expression's repr, the collected names' repr, then only the
non-default optional arguments, in the order prefix, suffix, invert,
replaceblanks. -/
def genSaveLine (g : GenState) (sorted : List (String × DocEntry)) : String :=
  let args := [pyReprStr g.inexpr, pyReprList (boundNameins g.gid sorted)]
  let args := args ++ (if g.prefx ≠ "" then ["prefix=" ++ pyReprStr g.prefx] else [])
  let args := args ++ (if g.suffx ≠ "" then ["suffix=" ++ pyReprStr g.suffx] else [])
  let args := args ++ (if g.invert then ["invert=True"] else [])
  let args := args ++ (if g.replaceblanks then ["replaceblanks=True"] else [])
  "FilterDatasets(" ++ String.intercalate ", " args ++ ")\n"

/-- The "am I the first" check of `DatasetFiltered.saveToFile`: walk the
document in sorted name order; the dataset itself (identified by the unique
name it is bound under) answers yes, any earlier dataset bound to the same
generator answers no. -/
def am1st (selfName : String) (gid : Nat) : List (String × DocEntry) → Bool
  | [] => false
  | (n, e) :: rest =>
    if n = selfName then true
    else if isBoundTo gid e then false
    else am1st selfName gid rest

/-- The emissions of the filtered datasets of `l`, each consulting the full
sorted collection `sorted` for its "am I first" check; every emission is
tagged with the emitting generator's identity. -/
def emittedOver (gens : Nat → GenState) (sorted : List (String × DocEntry)) :
    List (String × DocEntry) → List (Nat × String)
  | [] => []
  | (n, e) :: rest =>
    match e with
    | .filtered fs =>
      if am1st n fs.genId sorted then
        (fs.genId, genSaveLine (gens fs.genId) sorted) :: emittedOver gens sorted rest
      else emittedOver gens sorted rest
    | .plain _ => emittedOver gens sorted rest

/-- Modelled from the spec: the document save loop (outside this component)
invokes `saveToFile` once on every dataset, in sorted name order; plain
datasets emit no `FilterDatasets` statement.  `gens` resolves a generator
identity to its state. -/
def emittedFilterStatements (gens : Nat → GenState) (docData : List (String × DocEntry)) :
    List (Nat × String) :=
  emittedOver gens (sortByKey docData) (sortByKey docData)

/-- The first (in scan order) document name bound to generator `gid`. -/
def firstBoundKey (gid : Nat) : List (String × DocEntry) → Option String
  | [] => none
  | (n, e) :: rest => if isBoundTo gid e then some n else firstBoundKey gid rest

/-! Sanity checks: the end-to-end scenarios of the spec, evaluated on the
embedding. -/

/-- Spec scenario: `x>2` over `x=[1..5]`, `y=[10..50]`, no invert, no
replaceblanks, gives `[30, 40, 50]`. -/
def docScenario : GenDoc :=
  ⟨0,
    fun _ => some (DatasetV.numeric
      ⟨[NumV.val 0, NumV.val 0, NumV.val 1, NumV.val 1, NumV.val 1], none, none, none⟩),
    fun n =>
      if n = "y" then
        some (DatasetV.numeric
          ⟨[NumV.val 10, NumV.val 20, NumV.val 30, NumV.val 40, NumV.val 50], none, none, none⟩)
      else none⟩

/-- The generator of the spec scenarios: filter `y` with suffix `_f`. -/
def genScenario : GenState := ⟨0, -1, "x>2", ["y"], "", "_f", false, false, []⟩

theorem sanity_scenario_select :
    (checkUpdate genScenario docScenario).gen.outdatasets
      = [("y", DatasetV.numeric ⟨[NumV.val 30, NumV.val 40, NumV.val 50], none, none, none⟩)] := by
  decide

theorem sanity_scenario_invert :
    (checkUpdate { genScenario with invert := true } docScenario).gen.outdatasets
      = [("y", DatasetV.numeric ⟨[NumV.val 10, NumV.val 20], none, none, none⟩)] := by
  decide

theorem sanity_scenario_replaceblanks :
    (checkUpdate { genScenario with replaceblanks := true } docScenario).gen.outdatasets
      = [("y", DatasetV.numeric
          ⟨[NumV.nan, NumV.nan, NumV.val 30, NumV.val 40, NumV.val 50], none, none, none⟩)] := by
  decide

/-! Generic lemmas about the generator. -/

theorem filterLoop_gen_changeset (doc : GenDoc) (farr : List Bool) :
    ∀ (names : List String) (g : GenState) (logs : List String),
      (filterLoop doc farr g logs names).gen.changeset = g.changeset := by
  intro names
  induction names with
  | nil => intro g logs; rfl
  | cons name rest ih =>
    intro g logs
    unfold filterLoop
    cases doc.lookup name with
    | none => simpa using ih _ _
    | some ds =>
      by_cases hd : ds.dimensions ≠ 1
      · simpa [hd] using ih _ _
      · cases ds with
        | numeric nd => simpa [hd] using ih _ _
        | text td => cases hrb : g.replaceblanks <;> simp [hd, filterText, hrb]
        | other a b c => simpa [hd] using ih _ _

theorem recompute_gen_changeset (g : GenState) (doc : GenDoc) :
    (recompute g doc).gen.changeset = g.changeset := by
  unfold recompute
  dsimp only
  split
  · rfl
  · split
    · rfl
    · split
      · rfl
      · exact filterLoop_gen_changeset _ _ _ _ _

theorem checkUpdate_gen_changeset (g : GenState) (doc : GenDoc) :
    (checkUpdate g doc).gen.changeset = doc.changeset := by
  unfold checkUpdate
  by_cases h : doc.changeset = g.changeset
  · simp [h]
  · simpa [h] using recompute_gen_changeset _ _

/-- C5: calling `checkUpdate` twice on an unchanged document performs no work
the second time: whatever the first call did, the second call returns the
generator state unchanged, logs nothing and raises nothing — and its result
does not depend on the expression evaluator or the dataset lookup at all, so
no expression is re-evaluated, no cache is rewritten and `outdatasets` is not
cleared. -/
theorem C5_second_call_is_noop (g : GenState) (doc : GenDoc) :
    checkUpdate (checkUpdate g doc).gen doc = ⟨(checkUpdate g doc).gen, [], none⟩ ∧
    ∀ ev lk, checkUpdate (checkUpdate g doc).gen ⟨doc.changeset, ev, lk⟩
      = ⟨(checkUpdate g doc).gen, [], none⟩ := by
  have h := checkUpdate_gen_changeset g doc
  generalize hg : (checkUpdate g doc).gen = g' at h ⊢
  constructor
  · simp [checkUpdate, h]
  · intro ev lk
    simp [checkUpdate, h]

/-- C2 (code bug): `filterText` raises `NameError` on every call — the body
reads the unbound local `data` — instead of returning the filtered copy the
claim describes; shown here on the text dataset `["a","b"]` with filter
`[true, false]`, for both settings of `replaceblanks`. -/
theorem C2_filterText_raises :
    filterText true ⟨["a", "b"]⟩ [true, false] = Except.error (PyErr.nameError "data") ∧
    filterText false ⟨["a", "b"]⟩ [true, false] = Except.error (PyErr.nameError "data") :=
  And.intro rfl rfl

/-- The document of the C1 failing input: the filter expression evaluates to
the numeric array `[1, 0]`; `"t"` is a text dataset, `"u"` a numeric one. -/
def docC1 : GenDoc :=
  ⟨0,
    fun _ => some (DatasetV.numeric ⟨[NumV.val 1, NumV.val 0], none, none, none⟩),
    fun n =>
      if n = "t" then some (DatasetV.text ⟨["a", "b"]⟩)
      else if n = "u" then
        some (DatasetV.numeric ⟨[NumV.val 5, NumV.val 6], none, none, none⟩)
      else none⟩

/-- The generator of the C1 failing input: sources `["t", "u"]`. -/
def genC1 : GenState := ⟨0, -1, "f", ["t", "u"], "o", "", false, false, []⟩

/-- C1 (code bug): `checkUpdate` is claimed never to raise, but on a document
whose sources include a text dataset the unbound local `data` in `filterText`
raises `NameError`, which escapes `checkUpdate`; the remaining source name
`"u"` is abandoned rather than processed. -/
theorem C1_checkUpdate_raises :
    (checkUpdate genC1 docC1).err = some (PyErr.nameError "data") ∧
    assocGet (checkUpdate genC1 docC1).gen.outdatasets "u" = none := by
  decide

/-- C6: constructing the operation fails — with the `ValueError` message of
the source — exactly when both prefix and suffix are empty, and the document
is untouched by construction (the constructor neither reads nor writes it). -/
theorem C6_constructor_validation (doc : Doc) (inexpr : String) (ids : List String)
    (prefx suffx : String) (inv rb : Bool) :
    (constructOp doc inexpr ids prefx suffx inv rb).2 = doc ∧
    ((constructOp doc inexpr ids prefx suffx inv rb).1
        = Except.error "Prefix and/or suffix must be given" ↔ prefx = "" ∧ suffx = "") := by
  refine ⟨rfl, ?_⟩
  unfold constructOp mkOperation
  by_cases h : prefx = "" ∧ suffx = "" <;> simp [h]

theorem doLoop_doc_changeset (gid : Nat) (prefx suffx : String) :
    ∀ (names : List String) (old : List (String × Option DocEntry)) (doc : Doc),
      (doLoop gid prefx suffx names old doc).2.changeset = doc.changeset + names.length := by
  intro names
  induction names with
  | nil => intro old doc; simp [doLoop]
  | cons name rest ih =>
    intro old doc
    have h := ih (assocSet old (prefx ++ name ++ suffx) (doc.getData (prefx ++ name ++ suffx)))
      (doc.setData (prefx ++ name ++ suffx) (DocEntry.filtered ⟨gid, name, -1, none⟩))
    unfold doLoop
    rw [h]
    simp [Doc.setData]
    ring

/-! C7: the expression-validation branches of `checkUpdate`. -/

/-- The C7 counterexample document: the expression evaluator yields no
result, and nothing is looked up. -/
def docC7 : GenDoc := ⟨0, fun _ => none, fun _ => none⟩

/-- The C7 counterexample generator, carrying a stale non-empty cache so the
clearing of `outdatasets` is visible. -/
def genC7 : GenState :=
  ⟨0, -1, "bad", ["a"], "f_", "", false, false, [("a", emptyDataset)]⟩

/-- C7 counterexample: the evaluation of the filter expression yields no
result, yet `checkUpdate` logs no diagnostic — it returns silently (with
`outdatasets` cleared), refuting the claim that a diagnostic is logged via
`document.log` in the no-result case. -/
theorem C7_counterexample_no_log_on_none :
    docC7.eval genC7.inexpr = none ∧
    (checkUpdate genC7 docC7).logs = [] ∧
    (checkUpdate genC7 docC7).gen.outdatasets = [] ∧
    (checkUpdate genC7 docC7).err = none := by
  decide

/-- The behaviour of `checkUpdate`'s three expression-rejection branches: no
result — silent return, no log; dimensionality ≠ 1 — one diagnostic;
non-numeric datatype — one diagnostic; in all three cases the generator ends
in exactly the reset state (changeset recorded, `outdatasets` cleared and
left empty), so no source dataset is filtered and no exception escapes. -/
def C7Prop (g : GenState) (doc : GenDoc) : Prop :=
  (doc.eval g.inexpr = none →
    checkUpdate g doc
      = ⟨{ g with changeset := doc.changeset, outdatasets := [] }, [], none⟩) ∧
  (∀ d, doc.eval g.inexpr = some d → d.dimensions ≠ 1 →
    checkUpdate g doc
      = ⟨{ g with changeset := doc.changeset, outdatasets := [] },
          [msgInvalidDims g.inexpr], none⟩) ∧
  (∀ d, doc.eval g.inexpr = some d → d.dimensions = 1 → d.datatype ≠ "numeric" →
    checkUpdate g doc
      = ⟨{ g with changeset := doc.changeset, outdatasets := [] },
          [msgNonNumeric g.inexpr], none⟩)

/-- C7 (amended): on a changed document, an evaluation result of the wrong
dimensionality or of non-numeric datatype logs one diagnostic, while a
missing result is silent; in all three cases `outdatasets` is left empty and
no source dataset is filtered. -/
theorem C7_expression_rejection (g : GenState) (doc : GenDoc)
    (h : g.changeset ≠ doc.changeset) : C7Prop g doc := by
  have hne : doc.changeset ≠ g.changeset := fun e => h e.symm
  refine ⟨?_, ?_, ?_⟩
  · intro he
    unfold checkUpdate recompute
    rw [if_neg hne]
    dsimp only
    rw [he]
  · intro d hd h1
    unfold checkUpdate recompute
    rw [if_neg hne]
    dsimp only
    rw [hd]
    simp [h1]
  · intro d hd h1 h2
    unfold checkUpdate recompute
    rw [if_neg hne]
    dsimp only
    rw [hd]
    simp [h1, h2]

/-- C7 witness: the amended statement instantiated on the concrete no-result
document. -/
theorem C7_expression_rejection_witness : C7Prop genC7 docC7 :=
  C7_expression_rejection genC7 docC7 (by decide)

/-! C3: numeric filtering and length-mismatch truncation. -/

/-- The dataset invariant for one optional column: when present, its length
is the primary column's length. -/
def colLenOk (L : Nat) : Option (List NumV) → Bool
  | none => true
  | some l => decide (l.length = L)

/-- Position-wise specification of one filtered numeric column, truncated to
the first `n` positions: with `replaceblanks`, position `i < n` holds the
source value where the filter is true and NaN where it is false; without, the
column consists of exactly the source values at the positions `i < n` where
the filter is true. -/
def numColSpec (rb : Bool) (n : Nat) (farr : List Bool) (col : List NumV) : List NumV :=
  if rb then
    (List.range n).map (fun i => if farr.getD i false then col.getD i NumV.nan else NumV.nan)
  else
    (List.range n).filterMap
      (fun i => if farr.getD i false then some (col.getD i NumV.nan) else none)

theorem zipWith_mask_range :
    ∀ (n : Nat) (col : List NumV) (farr : List Bool), n ≤ col.length → n ≤ farr.length →
      (col.take n).zipWith (fun v f => if f then v else NumV.nan) (farr.take n)
        = (List.range n).map
            (fun i => if farr.getD i false then col.getD i NumV.nan else NumV.nan) := by
  intro n
  induction n with
  | zero => intro col farr _ _; simp
  | succ n ih =>
    intro col farr hc hf
    cases col with
    | nil => simp at hc
    | cons c cs =>
      cases farr with
      | nil => simp at hf
      | cons f fs =>
        simp only [List.take_succ_cons, List.zipWith_cons_cons, List.range_succ_eq_map,
          List.map_cons, List.map_map, List.getD_cons_zero]
        refine congrArg₂ _ rfl ?_
        rw [ih cs fs (Nat.le_of_succ_le_succ hc) (Nat.le_of_succ_le_succ hf)]
        simp [Function.comp]

theorem zip_select_range :
    ∀ (n : Nat) (col : List NumV) (farr : List Bool), n ≤ col.length → n ≤ farr.length →
      ((col.take n).zip (farr.take n)).filterMap (fun p => if p.2 then some p.1 else none)
        = (List.range n).filterMap
            (fun i => if farr.getD i false then some (col.getD i NumV.nan) else none) := by
  intro n
  induction n with
  | zero => intro col farr _ _; simp
  | succ n ih =>
    intro col farr hc hf
    cases col with
    | nil => simp at hc
    | cons c cs =>
      cases farr with
      | nil => simp at hf
      | cons f fs =>
        have hrec := ih cs fs (Nat.le_of_succ_le_succ hc) (Nat.le_of_succ_le_succ hf)
        have hfun :
            ((fun i => if (f :: fs).getD i false = true
                then some (((c :: cs) : List NumV).getD i NumV.nan) else none) ∘ Nat.succ)
              = fun i => if fs.getD i false = true then some (cs.getD i NumV.nan) else none := by
          funext i
          simp [List.getD_cons_succ]
        simp only [List.take_succ_cons, List.zip_cons_cons, List.filterMap_cons,
          List.range_succ_eq_map, List.filterMap_map, hfun, List.getD_cons_zero]
        cases f <;> simp [hrec]

theorem npFilterMask_spec (rb : Bool) (col : List NumV) (farr : List Bool) (n : Nat)
    (hc : n ≤ col.length) (hf : n ≤ farr.length) :
    npFilterMask rb (farr.take n) col = numColSpec rb n farr col := by
  have hlen : (farr.take n).length = n := by
    rw [List.length_take]
    exact min_eq_left hf
  cases rb with
  | true =>
    have h := zipWith_mask_range n col farr hc hf
    unfold npFilterMask numColSpec
    simpa [hlen] using h
  | false =>
    have h := zip_select_range n col farr hc hf
    unfold npFilterMask numColSpec
    simpa [hlen] using h

/-- What C3 asserts of `filterNumeric` fed the chopped filter array of
`checkUpdate` (`filterarr[:min(len(ds.data), len(filterarr))]`): every output
column — primary data and each present error-bar column — equals its
position-wise specification over the truncated length
`min nd.data.length farr.length`, and with `replaceblanks` the output length
is exactly that truncated length. -/
def C3Prop (rb : Bool) (nd : NumericDS) (farr : List Bool) : Prop :=
  (filterNumeric rb nd (farr.take (min nd.data.length farr.length))).data
      = numColSpec rb (min nd.data.length farr.length) farr nd.data ∧
  (filterNumeric rb nd (farr.take (min nd.data.length farr.length))).serr
      = nd.serr.map (numColSpec rb (min nd.data.length farr.length) farr) ∧
  (filterNumeric rb nd (farr.take (min nd.data.length farr.length))).perr
      = nd.perr.map (numColSpec rb (min nd.data.length farr.length) farr) ∧
  (filterNumeric rb nd (farr.take (min nd.data.length farr.length))).nerr
      = nd.nerr.map (numColSpec rb (min nd.data.length farr.length) farr) ∧
  (rb = true →
    (filterNumeric rb nd (farr.take (min nd.data.length farr.length))).data.length
      = min nd.data.length farr.length)

/-- C3: numeric filtering truncates source and filter to
`min(len(source.data), len(filterarr))` without error; with `replaceblanks`
every output column keeps the truncated length with NaN at the filtered-out
positions, and without it every output column shrinks to exactly the
positions where the filter is true. -/
theorem C3_filterNumeric_truncates (rb : Bool) (nd : NumericDS) (farr : List Bool)
    (hs : colLenOk nd.data.length nd.serr = true)
    (hp : colLenOk nd.data.length nd.perr = true)
    (hn : colLenOk nd.data.length nd.nerr = true) : C3Prop rb nd farr := by
  have hdata : min nd.data.length farr.length ≤ nd.data.length := min_le_left _ _
  have hfarr : min nd.data.length farr.length ≤ farr.length := min_le_right _ _
  have col
      (o : Option (List NumV)) (ho : colLenOk nd.data.length o = true) :
      o.map (npFilterMask rb (farr.take (min nd.data.length farr.length)))
        = o.map (numColSpec rb (min nd.data.length farr.length) farr) := by
    cases o with
    | none => rfl
    | some l =>
      have hl : l.length = nd.data.length := of_decide_eq_true ho
      show some (npFilterMask rb (farr.take (min nd.data.length farr.length)) l)
        = some (numColSpec rb (min nd.data.length farr.length) farr l)
      rw [npFilterMask_spec rb l farr _ (hl ▸ hdata) hfarr]
  refine ⟨?_, ?_, ?_, ?_, ?_⟩
  · exact npFilterMask_spec rb nd.data farr _ hdata hfarr
  · exact col nd.serr hs
  · exact col nd.perr hp
  · exact col nd.nerr hn
  · intro hrb
    subst hrb
    show (npFilterMask true (farr.take (min nd.data.length farr.length)) nd.data).length = _
    rw [npFilterMask_spec true nd.data farr _ hdata hfarr]
    unfold numColSpec
    simp

/-- C3 witness: a length-3 numeric dataset (with an error-bar column) against
a length-5 filter, with `replaceblanks` set. -/
def ndC3 : NumericDS :=
  ⟨[NumV.val 10, NumV.val 20, NumV.val 30],
    some [NumV.val 1, NumV.val 2, NumV.val 3], none, none⟩

/-- The length-5 filter array of the C3 witness. -/
def farrC3 : List Bool := [true, false, true, true, false]

/-- C3 witness: the theorem instantiated on a source of length 3 and a filter
of length 5 (length-3 behaviour). -/
theorem C3_filterNumeric_truncates_witness : C3Prop true ndC3 farrC3 :=
  C3_filterNumeric_truncates true ndC3 farrC3 (by decide) (by decide) (by decide)

/-! C9: attribute reads on a derived dataset are never stale. -/

/-- The generator's outputs recomputed afresh at the current document
version: the body of `checkUpdate` past a failed cache check.  This is the
reference value "computed at the current document version" against which
staleness is judged. -/
def freshOutdatasets (gen : GenState) (doc : GenDoc) : List (String × DatasetV) :=
  (recompute { gen with changeset := doc.changeset } doc).gen.outdatasets

/-- What C9 asserts of an attribute read on a stale derived dataset: the read
triggers the staleness check, the local changeset is re-synchronised to the
document version, no error escapes, and the dataset the read is served from
is exactly the generator's output for `namein` freshly computed at the current
document version — or the empty dataset when the generator produced nothing
for that name. -/
def C9Prop (fs : FilteredState) (gen : GenState) (doc : GenDoc) : Prop :=
  (fGetattrDS fs gen doc).1.fs.changeset = doc.changeset ∧
  (fGetattrDS fs gen doc).1.err = none ∧
  (fGetattrDS fs gen doc).2
      = some ((assocGet (freshOutdatasets gen doc) fs.namein).getD emptyDataset) ∧
  (assocGet (freshOutdatasets gen doc) fs.namein = none →
    (fGetattrDS fs gen doc).2 = some emptyDataset)

/-- C9: reading an attribute of a `DatasetFiltered` whose local changeset
differs from the document version refreshes through the generator and serves
the value computed at the current document version, falling back to an empty
dataset when the generator produced no output for the tracked source name.
The hypotheses: the generator upholds its own cache invariant (a cache hit
means its cache already equals the fresh recomputation), and the
recomputation raises no exception. -/
theorem C9_read_is_fresh (fs : FilteredState) (gen : GenState) (doc : GenDoc)
    (hstale : fs.changeset ≠ doc.changeset)
    (hinv : gen.changeset = doc.changeset → gen.outdatasets = freshOutdatasets gen doc)
    (hok : (checkUpdate gen doc).err = none) :
    C9Prop fs gen doc := by
  have hne : doc.changeset ≠ fs.changeset := fun e => hstale e.symm
  have houts : (checkUpdate gen doc).gen.outdatasets = freshOutdatasets gen doc := by
    unfold checkUpdate
    by_cases hc : doc.changeset = gen.changeset
    · rw [if_pos hc]
      exact hinv hc.symm
    · rw [if_neg hc]
      rfl
  have hstep : fCheckUpdate fs gen doc
      = ⟨{ fs with changeset := doc.changeset, internalds := some ((assocGet (freshOutdatasets gen doc) fs.namein).getD emptyDataset) }, (checkUpdate gen doc).gen, (checkUpdate gen doc).logs, none⟩ := by
    unfold fCheckUpdate
    rw [if_pos hne]
    dsimp only
    rw [hok]
    dsimp only
    rw [houts]
    cases hcase : assocGet (freshOutdatasets gen doc) fs.namein <;> simp [hcase]
  unfold C9Prop fGetattrDS
  rw [hstep]
  refine ⟨rfl, rfl, rfl, ?_⟩
  intro h
  rw [h]
  rfl

/-- A stale derived dataset tracking the text source `"t"` of the C1
document. -/
def fsC9x : FilteredState := ⟨0, "t", -1, none⟩

/-- C9 counterexample: on a reachable input — the generator's sources include
the text dataset `"t"` — an attribute read on a stale derived dataset is not
served from an empty dataset: the generator's recomputation raises
`NameError` (the unbound local `data` in `filterText`), the exception escapes
the read, and no dataset is observed, even though the generator produced no
output for the tracked source name. -/
theorem C9_counterexample_read_raises :
    (fGetattrDS fsC9x genC1 docC1).1.err = some (PyErr.nameError "data") ∧
    (fGetattrDS fsC9x genC1 docC1).2 = none ∧
    assocGet (checkUpdate genC1 docC1).gen.outdatasets fsC9x.namein = none := by
  decide

/-- The document of the C9 witness: the filter evaluates to `[1, 0]` and `y`
is the numeric dataset `[10, 20]`. -/
def docC9 : GenDoc :=
  ⟨0,
    fun _ => some (DatasetV.numeric ⟨[NumV.val 1, NumV.val 0], none, none, none⟩),
    fun n =>
      if n = "y" then some (DatasetV.numeric ⟨[NumV.val 10, NumV.val 20], none, none, none⟩)
      else none⟩

/-- The generator of the C9 witness, never computed. -/
def genC9 : GenState := ⟨0, -1, "e", ["y"], "", "_f", false, false, []⟩

/-- The stale derived dataset of the C9 witness. -/
def fsC9 : FilteredState := ⟨0, "y", -1, none⟩

/-- C9 witness: the theorem instantiated on the concrete stale derived
dataset. -/
theorem C9_read_is_fresh_witness : C9Prop fsC9 genC9 docC9 :=
  C9_read_is_fresh fsC9 genC9 docC9 (by decide) (by decide) (by decide)

/-! Association-list lemmas (Python dict semantics). -/

theorem assocGet_set_self {α : Type} (l : List (String × α)) (k : String) (v : α) :
    assocGet (assocSet l k v) k = some v := by
  induction l with
  | nil => simp [assocSet, assocGet]
  | cons p rest ih =>
    obtain ⟨pk, pv⟩ := p
    by_cases h : pk = k
    · simp [assocSet, h, assocGet]
    · simp [assocSet, h, assocGet, ih]

theorem assocGet_set_other {α : Type} (l : List (String × α)) (k : String) (v : α)
    (k' : String) (h : k ≠ k') : assocGet (assocSet l k v) k' = assocGet l k' := by
  induction l with
  | nil => simp [assocSet, assocGet, h]
  | cons p rest ih =>
    obtain ⟨pk, pv⟩ := p
    by_cases hp : pk = k
    · subst hp
      simp [assocSet, assocGet, h]
    · simp [assocSet, hp, assocGet, ih]

theorem assocGet_eq_none_of_not_mem {α : Type} (l : List (String × α)) (k : String)
    (h : k ∉ l.map Prod.fst) : assocGet l k = none := by
  induction l with
  | nil => rfl
  | cons p rest ih =>
    obtain ⟨pk, pv⟩ := p
    simp only [List.map_cons, List.mem_cons] at h
    push_neg at h
    have hne : ¬ pk = k := fun e => h.1 e.symm
    simp [assocGet, hne, ih h.2]

theorem assocGet_erase_self {α : Type} (l : List (String × α)) (k : String)
    (hnd : (l.map Prod.fst).Nodup) : assocGet (assocErase l k) k = none := by
  induction l with
  | nil => rfl
  | cons p rest ih =>
    obtain ⟨pk, pv⟩ := p
    simp only [List.map_cons, List.nodup_cons] at hnd
    by_cases h : pk = k
    · rw [show assocErase ((pk, pv) :: rest) k = rest from by simp [assocErase, h]]
      exact assocGet_eq_none_of_not_mem rest k (h ▸ hnd.1)
    · rw [show assocErase ((pk, pv) :: rest) k = (pk, pv) :: assocErase rest k from by
        simp [assocErase, h]]
      rw [show assocGet ((pk, pv) :: assocErase rest k) k = assocGet (assocErase rest k) k
        from by simp [assocGet, h]]
      exact ih hnd.2

theorem assocGet_erase_other {α : Type} (l : List (String × α)) (k k' : String)
    (h : k' ≠ k) : assocGet (assocErase l k) k' = assocGet l k' := by
  induction l with
  | nil => rfl
  | cons p rest ih =>
    obtain ⟨pk, pv⟩ := p
    by_cases hp : pk = k
    · rw [show assocErase ((pk, pv) :: rest) k = rest from by simp [assocErase, hp]]
      rw [show assocGet ((pk, pv) :: rest) k' = assocGet rest k' from by
        simp [assocGet, show ¬ pk = k' from fun e => h (e.symm.trans hp)]]
    · rw [show assocErase ((pk, pv) :: rest) k = (pk, pv) :: assocErase rest k from by
        simp [assocErase, hp]]
      by_cases hp' : pk = k'
      · simp [assocGet, hp']
      · simp [assocGet, hp', ih]

theorem assocSet_append_of_not_mem {α : Type} (l : List (String × α)) (k : String) (v : α)
    (h : k ∉ l.map Prod.fst) : assocSet l k v = l ++ [(k, v)] := by
  induction l with
  | nil => rfl
  | cons p rest ih =>
    obtain ⟨pk, pv⟩ := p
    simp only [List.map_cons, List.mem_cons] at h
    push_neg at h
    have hne : ¬ pk = k := fun e => h.1 e.symm
    simp [assocSet, hne, ih h.2]

theorem mem_keys_assocSet {α : Type} (l : List (String × α)) (k : String) (v : α)
    (x : String) : x ∈ (assocSet l k v).map Prod.fst ↔ x ∈ l.map Prod.fst ∨ x = k := by
  induction l with
  | nil => simp [assocSet]
  | cons p rest ih =>
    obtain ⟨pk, pv⟩ := p
    by_cases hp : pk = k
    · subst hp
      simp [assocSet]
      tauto
    · simp [assocSet, hp, ih]
      tauto

theorem nodup_keys_assocSet {α : Type} (l : List (String × α)) (k : String) (v : α)
    (hnd : (l.map Prod.fst).Nodup) : ((assocSet l k v).map Prod.fst).Nodup := by
  induction l with
  | nil => simp [assocSet]
  | cons p rest ih =>
    obtain ⟨pk, pv⟩ := p
    simp only [List.map_cons, List.nodup_cons] at hnd
    by_cases hp : pk = k
    · rw [show assocSet ((pk, pv) :: rest) k v = (k, v) :: rest from by simp [assocSet, hp]]
      simp only [List.map_cons, List.nodup_cons]
      exact ⟨hp ▸ hnd.1, hnd.2⟩
    · simp only [assocSet, hp, if_false, List.map_cons, List.nodup_cons]
      refine ⟨?_, ih hnd.2⟩
      rw [mem_keys_assocSet]
      push_neg
      exact ⟨hnd.1, hp⟩

theorem mem_keys_assocErase {α : Type} (l : List (String × α)) (k x : String)
    (h : x ∈ (assocErase l k).map Prod.fst) : x ∈ l.map Prod.fst := by
  induction l with
  | nil => simpa [assocErase] using h
  | cons p rest ih =>
    obtain ⟨pk, pv⟩ := p
    by_cases hp : pk = k
    · rw [show assocErase ((pk, pv) :: rest) k = rest from by simp [assocErase, hp]] at h
      simp only [List.map_cons, List.mem_cons]
      exact Or.inr h
    · simp only [assocErase, hp, if_false, List.map_cons, List.mem_cons] at h
      simp only [List.map_cons, List.mem_cons]
      rcases h with h | h
      · exact Or.inl h
      · exact Or.inr (ih h)

theorem nodup_keys_assocErase {α : Type} (l : List (String × α)) (k : String)
    (hnd : (l.map Prod.fst).Nodup) : ((assocErase l k).map Prod.fst).Nodup := by
  induction l with
  | nil => simp [assocErase]
  | cons p rest ih =>
    obtain ⟨pk, pv⟩ := p
    simp only [List.map_cons, List.nodup_cons] at hnd
    by_cases hp : pk = k
    · subst hp
      simpa [assocErase] using hnd.2
    · simp only [assocErase, hp, if_false, List.map_cons, List.nodup_cons]
      exact ⟨fun hm => hnd.1 (mem_keys_assocErase rest k pk hm), ih hnd.2⟩

/-! C4: `do` followed by `undo` restores the dataset collection. -/

theorem restoreOne_getData_self (d : Doc) (k : String) (v : Option DocEntry)
    (hnd : (d.data.map Prod.fst).Nodup) : (restoreOne d k v).getData k = v := by
  cases v with
  | none => exact assocGet_erase_self d.data k hnd
  | some w => exact assocGet_set_self d.data k w

theorem restoreOne_getData_other (d : Doc) (k : String) (v : Option DocEntry)
    (k' : String) (h : k' ≠ k) : (restoreOne d k v).getData k' = d.getData k' := by
  cases v with
  | none => exact assocGet_erase_other d.data k k' h
  | some w => exact assocGet_set_other d.data k w k' (fun e => h e.symm)

theorem restoreOne_nodup_keys (d : Doc) (k : String) (v : Option DocEntry)
    (hnd : (d.data.map Prod.fst).Nodup) :
    ((restoreOne d k v).data.map Prod.fst).Nodup := by
  cases v with
  | none => exact nodup_keys_assocErase d.data k hnd
  | some w => exact nodup_keys_assocSet d.data k w hnd

theorem undo_restores (prefx suffx : String) :
    ∀ (names : List String) (doc dAny : Doc) (k : String),
      (names.map (fun n => prefx ++ n ++ suffx)).Nodup →
      (dAny.data.map Prod.fst).Nodup →
      ((names.map (fun n =>
          (prefx ++ n ++ suffx, doc.getData (prefx ++ n ++ suffx)))).foldl
            (fun d p => restoreOne d p.1 p.2) dAny).getData k
        = if k ∈ names.map (fun n => prefx ++ n ++ suffx) then doc.getData k
          else dAny.getData k := by
  intro names
  induction names with
  | nil => intro doc dAny k _ _; simp
  | cons n rest ih =>
    intro doc dAny k hnd hk
    simp only [List.map_cons, List.nodup_cons] at hnd
    have hk1 : ((restoreOne dAny (prefx ++ n ++ suffx)
        (doc.getData (prefx ++ n ++ suffx))).data.map Prod.fst).Nodup :=
      restoreOne_nodup_keys _ _ _ hk
    simp only [List.map_cons, List.foldl_cons]
    rw [ih doc _ k hnd.2 hk1]
    by_cases hmem : k ∈ rest.map (fun n => prefx ++ n ++ suffx)
    · rw [if_pos hmem, if_pos (List.mem_cons_of_mem _ hmem)]
    · by_cases hkn : k = prefx ++ n ++ suffx
      · have hin : k ∈ (prefx ++ n ++ suffx) :: rest.map (fun n => prefx ++ n ++ suffx) := by
          simp [hkn]
        rw [if_neg hmem, if_pos hin, hkn]
        exact restoreOne_getData_self _ _ _ hk
      · have hnin : k ∉ (prefx ++ n ++ suffx) :: rest.map (fun n => prefx ++ n ++ suffx) := by
          simp only [List.mem_cons]
          push_neg
          exact ⟨hkn, hmem⟩
        rw [if_neg hmem, if_neg hnin]
        exact restoreOne_getData_other _ _ _ _ hkn

theorem doLoop_old_spec (gid : Nat) (prefx suffx : String) :
    ∀ (names : List String) (old : List (String × Option DocEntry)) (doc : Doc),
      (names.map (fun n => prefx ++ n ++ suffx)).Nodup →
      (∀ n ∈ names, (prefx ++ n ++ suffx) ∉ old.map Prod.fst) →
      (doLoop gid prefx suffx names old doc).1
        = old ++ names.map (fun n =>
            (prefx ++ n ++ suffx, doc.getData (prefx ++ n ++ suffx))) := by
  intro names
  induction names with
  | nil => intro old doc _ _; simp [doLoop]
  | cons n rest ih =>
    intro old doc hnd hfresh
    simp only [List.map_cons, List.nodup_cons] at hnd
    have hset : assocSet old (prefx ++ n ++ suffx) (doc.getData (prefx ++ n ++ suffx))
        = old ++ [(prefx ++ n ++ suffx, doc.getData (prefx ++ n ++ suffx))] :=
      assocSet_append_of_not_mem _ _ _ (hfresh n (by simp))
    unfold doLoop
    dsimp only
    rw [hset]
    rw [ih _ _ hnd.2 ?_]
    · have hget : ∀ m ∈ rest,
          (doc.setData (prefx ++ n ++ suffx)
              (DocEntry.filtered ⟨gid, n, -1, none⟩)).getData (prefx ++ m ++ suffx)
            = doc.getData (prefx ++ m ++ suffx) := by
        intro m hm
        refine assocGet_set_other _ _ _ _ ?_
        intro e
        exact hnd.1 (e ▸ List.mem_map_of_mem _ hm)
      rw [List.map_congr_left (fun m hm => by rw [hget m hm])]
      simp
    · intro m hm
      simp only [List.map_append, List.mem_append]
      push_neg
      refine ⟨hfresh m (by simp [hm]), ?_⟩
      simp only [List.map_cons, List.map_nil, List.mem_singleton]
      intro e
      exact hnd.1 (e ▸ List.mem_map_of_mem _ hm)

theorem doLoop_getData_other (gid : Nat) (prefx suffx : String) :
    ∀ (names : List String) (old : List (String × Option DocEntry)) (doc : Doc)
      (k : String), k ∉ names.map (fun n => prefx ++ n ++ suffx) →
      (doLoop gid prefx suffx names old doc).2.getData k = doc.getData k := by
  intro names
  induction names with
  | nil => intro old doc k _; rfl
  | cons n rest ih =>
    intro old doc k hk
    simp only [List.map_cons, List.mem_cons] at hk
    push_neg at hk
    unfold doLoop
    rw [ih _ _ k hk.2]
    exact assocGet_set_other _ _ _ _ (fun e => hk.1 e.symm)

theorem doLoop_nodup_keys (gid : Nat) (prefx suffx : String) :
    ∀ (names : List String) (old : List (String × Option DocEntry)) (doc : Doc),
      (doc.data.map Prod.fst).Nodup →
      ((doLoop gid prefx suffx names old doc).2.data.map Prod.fst).Nodup := by
  intro names
  induction names with
  | nil => intro old doc h; exact h
  | cons n rest ih =>
    intro old doc h
    unfold doLoop
    exact ih _ _ (nodup_keys_assocSet _ _ _ h)

/-- C4 (amended): when the computed output names are pairwise distinct — in
particular whenever the operation's input name list has no duplicates — `do`
followed by `undo` restores the document's dataset collection exactly: every
name is bound to the same object as before `do`, and a name that was absent
is absent again. -/
theorem C4_do_undo_restores (op : OpState) (gid : Nat) (doc : Doc)
    (hnd : (op.indatasets.map (fun n => op.prefx ++ n ++ op.suffx)).Nodup)
    (hkeys : (doc.data.map Prod.fst).Nodup) :
    ∀ k, (opUndo (opDo op gid doc).op (opDo op gid doc).doc).getData k
      = doc.getData k := by
  intro k
  have hold : (opDo op gid doc).op.olddatasets
      = op.indatasets.map (fun n =>
          (op.prefx ++ n ++ op.suffx, doc.getData (op.prefx ++ n ++ op.suffx))) := by
    show (doLoop gid op.prefx op.suffx op.indatasets [] doc).1 = _
    rw [doLoop_old_spec gid op.prefx op.suffx op.indatasets [] doc hnd (by simp)]
    simp
  have hdoc' : ((opDo op gid doc).doc.data.map Prod.fst).Nodup :=
    doLoop_nodup_keys gid op.prefx op.suffx op.indatasets [] doc hkeys
  show ((opDo op gid doc).op.olddatasets.foldl
      (fun d p => restoreOne d p.1 p.2) (opDo op gid doc).doc).getData k = _
  rw [hold, undo_restores op.prefx op.suffx op.indatasets doc _ k hnd hdoc']
  by_cases hmem : k ∈ op.indatasets.map (fun n => op.prefx ++ n ++ op.suffx)
  · simp [hmem]
  · simp only [hmem, if_false]
    exact doLoop_getData_other gid op.prefx op.suffx op.indatasets [] doc k hmem

/-- The C4 counterexample operation: the input name `"a"` listed twice. -/
def opC4 : OpState := ⟨"e", ["a", "a"], "p", "", false, false, []⟩

/-- The C4 counterexample document: `"a"` bound, `"pa"` absent. -/
def docC4 : Doc := ⟨0, [("a", DocEntry.plain (DatasetV.text ⟨["v"]⟩))]⟩

/-- C4 counterexample: with the duplicated input name `"a"`, the second loop
iteration of `do` overwrites the recorded old occupant of `"pa"` with the
derived dataset the first iteration just bound, so `undo` re-binds `"pa"`
instead of removing it: the collection after `do; undo` differs from the
initial one at `"pa"`. -/
theorem C4_counterexample_duplicate_name :
    (opUndo (opDo opC4 0 docC4).op (opDo opC4 0 docC4).doc).getData "pa"
      ≠ docC4.getData "pa" := by
  decide

/-- The C4 witness operation: two distinct input names. -/
def opC4w : OpState := ⟨"e", ["a", "b"], "p", "", false, false, []⟩

/-- The C4 witness document: `"a"` bound, `"pa"` and `"pb"` absent. -/
def docC4w : Doc := ⟨0, [("a", DocEntry.plain (DatasetV.text ⟨["v"]⟩))]⟩

/-- C4 witness: the amended theorem instantiated on the concrete operation
and document, read back at the output name `"pa"`. -/
theorem C4_do_undo_restores_witness :
    (opUndo (opDo opC4w 0 docC4w).op (opDo opC4w 0 docC4w).doc).getData "pa"
      = docC4w.getData "pa" :=
  C4_do_undo_restores opC4w 0 docC4w (by decide) (by decide) "pa"

/-! C8: exactly one reconstruction statement per generator on save. -/

theorem firstBoundKey_exists (gid : Nat) :
    ∀ (l : List (String × DocEntry)) (k : String), firstBoundKey gid l = some k →
      ∃ e, (k, e) ∈ l ∧ isBoundTo gid e = true := by
  intro l
  induction l with
  | nil => intro k h; cases h
  | cons p rest ih =>
    intro k h
    obtain ⟨pk, pe⟩ := p
    by_cases hb : isBoundTo gid pe = true
    · rw [show firstBoundKey gid ((pk, pe) :: rest) = some pk from by
        simp [firstBoundKey, hb]] at h
      injection h with h
      subst h
      exact ⟨pe, by simp, hb⟩
    · rw [show firstBoundKey gid ((pk, pe) :: rest) = firstBoundKey gid rest from by
        simp [firstBoundKey, hb]] at h
      obtain ⟨e, hm, hbe⟩ := ih k h
      exact ⟨e, by simp [hm], hbe⟩

theorem firstBoundKey_mem_keys (gid : Nat) (l : List (String × DocEntry)) (k : String)
    (h : firstBoundKey gid l = some k) : k ∈ l.map Prod.fst := by
  obtain ⟨e, hm, _⟩ := firstBoundKey_exists gid l k h
  exact List.mem_map_of_mem Prod.fst hm

theorem am1st_of_firstBound (gid : Nat) :
    ∀ (l : List (String × DocEntry)) (k : String), (l.map Prod.fst).Nodup →
      firstBoundKey gid l = some k → am1st k gid l = true := by
  intro l
  induction l with
  | nil => intro k _ h; cases h
  | cons p rest ih =>
    intro k hnd h
    obtain ⟨pk, pe⟩ := p
    simp only [List.map_cons, List.nodup_cons] at hnd
    by_cases hb : isBoundTo gid pe = true
    · rw [show firstBoundKey gid ((pk, pe) :: rest) = some pk from by
        simp [firstBoundKey, hb]] at h
      injection h with h
      simp [am1st, h]
    · rw [show firstBoundKey gid ((pk, pe) :: rest) = firstBoundKey gid rest from by
        simp [firstBoundKey, hb]] at h
      have hne : ¬ pk = k := by
        intro e
        exact hnd.1 (e ▸ firstBoundKey_mem_keys gid rest k h)
      simp [am1st, hne, hb, ih k hnd.2 h]

theorem am1st_false_of_not_first (gid : Nat) :
    ∀ (l : List (String × DocEntry)) (k k' : String) (e' : DocEntry),
      (l.map Prod.fst).Nodup → firstBoundKey gid l = some k →
      (k', e') ∈ l → isBoundTo gid e' = true → k' ≠ k →
      am1st k' gid l = false := by
  intro l
  induction l with
  | nil => intro k k' e' _ h; cases h
  | cons p rest ih =>
    intro k k' e' hnd hfb hm hb' hne
    obtain ⟨pk, pe⟩ := p
    simp only [List.map_cons, List.nodup_cons] at hnd
    by_cases hb : isBoundTo gid pe = true
    · rw [show firstBoundKey gid ((pk, pe) :: rest) = some pk from by
        simp [firstBoundKey, hb]] at hfb
      injection hfb with hfb
      have hpk : ¬ pk = k' := fun e => hne (e.symm.trans hfb)
      simp [am1st, hpk, hb]
    · rw [show firstBoundKey gid ((pk, pe) :: rest) = firstBoundKey gid rest from by
        simp [firstBoundKey, hb]] at hfb
      have hmr : (k', e') ∈ rest := by
        rcases List.mem_cons.mp hm with he | he
        · exfalso
          injection he with h1 h2
          exact hb (h2 ▸ hb')
        · exact he
      have hpk : ¬ pk = k' := by
        intro e
        exact hnd.1 (e ▸ List.mem_map_of_mem Prod.fst hmr)
      simp [am1st, hpk, hb, ih k k' e' hnd.2 hfb hmr hb' hne]

theorem emittedOver_filter (gens : Nat → GenState) (L : List (String × DocEntry))
    (gid : Nat) :
    ∀ l : List (String × DocEntry),
      (emittedOver gens L l).filter (fun p => decide (p.1 = gid))
        = (l.filter (fun p => isBoundTo gid p.2 && am1st p.1 gid L)).map
            (fun _ => (gid, genSaveLine (gens gid) L)) := by
  intro l
  induction l with
  | nil => rfl
  | cons p rest ih =>
    obtain ⟨n, e⟩ := p
    cases e with
    | plain d => simpa [emittedOver, isBoundTo] using ih
    | filtered fs =>
      by_cases hg : fs.genId = gid
      · by_cases ha : am1st n fs.genId L = true
        · have ha' : am1st n gid L = true := hg ▸ ha
          simp [emittedOver, ha, List.filter_cons, hg, isBoundTo, ha', ih]
        · have ha' : am1st n gid L = false := by
            rw [← hg]
            exact Bool.not_eq_true _ ▸ eq_false_of_ne_true ha
          simp [emittedOver, ha, isBoundTo, hg, ha', ih]
      · by_cases ha : am1st n fs.genId L = true
        · simp [emittedOver, ha, List.filter_cons, hg, isBoundTo, ih]
        · simp [emittedOver, ha, isBoundTo, hg, ih]

theorem filter_key_bound_single (gid : Nat) :
    ∀ (l : List (String × DocEntry)) (k : String) (ek : DocEntry),
      (l.map Prod.fst).Nodup → (k, ek) ∈ l → isBoundTo gid ek = true →
      l.filter (fun p => isBoundTo gid p.2 && decide (p.1 = k)) = [(k, ek)] := by
  intro l
  induction l with
  | nil => intro k ek _ h; cases h
  | cons p rest ih =>
    intro k ek hnd hm hb
    obtain ⟨pk, pe⟩ := p
    simp only [List.map_cons, List.nodup_cons] at hnd
    by_cases hpk : pk = k
    · have hek : pe = ek := by
        rcases List.mem_cons.mp hm with he | he
        · injection he with h1 h2
          exact h2.symm
        · exfalso
          exact hnd.1 (hpk ▸ List.mem_map_of_mem Prod.fst he)
      subst hek
      have hrest : rest.filter (fun p => isBoundTo gid p.2 && decide (p.1 = k)) = [] := by
        rw [List.filter_eq_nil_iff]
        intro a ha
        have : ¬ a.1 = k := by
          intro e
          exact hnd.1 (hpk ▸ e ▸ List.mem_map_of_mem Prod.fst ha)
        simp [this]
      rw [List.filter_cons]
      simp [hpk, hb, hrest]
    · have hmr : (k, ek) ∈ rest := by
        rcases List.mem_cons.mp hm with he | he
        · exfalso
          injection he with h1 h2
          exact hpk h1.symm
        · exact he
      rw [List.filter_cons]
      simp [hpk, ih k ek hnd.2 hmr hb]

theorem exists_firstBound_of_boundNameins_ne_nil (gid : Nat) :
    ∀ l : List (String × DocEntry), boundNameins gid l ≠ [] →
      ∃ k, firstBoundKey gid l = some k := by
  intro l
  induction l with
  | nil => intro h; exact absurd rfl h
  | cons p rest ih =>
    intro h
    obtain ⟨n, e⟩ := p
    cases e with
    | plain d =>
      obtain ⟨k, hk⟩ := ih (by simpa [boundNameins] using h)
      exact ⟨k, by simpa [firstBoundKey, isBoundTo] using hk⟩
    | filtered fs =>
      by_cases hg : fs.genId = gid
      · exact ⟨n, by simp [firstBoundKey, isBoundTo, hg]⟩
      · obtain ⟨k, hk⟩ := ih (by simpa [boundNameins, hg] using h)
        exact ⟨k, by simpa [firstBoundKey, isBoundTo, hg] using hk⟩

/-- What C8 (amended) asserts: in a full save of the document, the statements
emitted for the generator are exactly one — the generator's own line — and
that line is the expression's repr, then the bound source names (in the order
of the document's sorted dataset names), then only the non-default optional
flags in the order prefix, suffix, invert, replaceblanks. -/
def C8Prop (gens : Nat → GenState) (docData : List (String × DocEntry))
    (g : GenState) : Prop :=
  (emittedFilterStatements gens docData).filter (fun p => decide (p.1 = g.gid))
      = [(g.gid, genSaveLine g (sortByKey docData))] ∧
  genSaveLine g (sortByKey docData)
      = "FilterDatasets(" ++ String.intercalate ", "
          ([pyReprStr g.inexpr, pyReprList (boundNameins g.gid (sortByKey docData))]
            ++ (if g.prefx ≠ "" then ["prefix=" ++ pyReprStr g.prefx] else [])
            ++ (if g.suffx ≠ "" then ["suffix=" ++ pyReprStr g.suffx] else [])
            ++ (if g.invert then ["invert=True"] else [])
            ++ (if g.replaceblanks then ["replaceblanks=True"] else [])) ++ ")\n"

/-- C8 (amended): when at least one dataset in the document is bound to the
generator, a full save emits exactly one `FilterDatasets` statement for it —
the first bound dataset in the document's sorted name order emits, every
other bound dataset stays silent — and the statement lists the expression,
the bound source names in the order of the document's sorted dataset names
(not necessarily sorted themselves), and only the non-default optional flags
in the keyword order prefix, suffix, invert, replaceblanks. -/
theorem C8_single_emission (gens : Nat → GenState) (docData : List (String × DocEntry))
    (g : GenState) (hg : gens g.gid = g)
    (hnd : ((sortByKey docData).map Prod.fst).Nodup)
    (hb : boundNameins g.gid (sortByKey docData) ≠ []) : C8Prop gens docData g := by
  obtain ⟨k, hk⟩ := exists_firstBound_of_boundNameins_ne_nil g.gid (sortByKey docData) hb
  obtain ⟨ek, hmem, hbek⟩ := firstBoundKey_exists g.gid (sortByKey docData) k hk
  constructor
  · unfold emittedFilterStatements
    rw [emittedOver_filter gens (sortByKey docData) g.gid (sortByKey docData)]
    have hcong : ∀ p ∈ sortByKey docData,
        (isBoundTo g.gid p.2 && am1st p.1 g.gid (sortByKey docData))
          = (isBoundTo g.gid p.2 && decide (p.1 = k)) := by
      intro p hp
      by_cases hbp : isBoundTo g.gid p.2 = true
      · rw [hbp, Bool.true_and, Bool.true_and]
        by_cases hpk : p.1 = k
        · rw [hpk]
          simp [am1st_of_firstBound g.gid (sortByKey docData) k hnd hk]
        · rw [am1st_false_of_not_first g.gid (sortByKey docData) k p.1 p.2 hnd hk hp hbp hpk]
          simp [hpk]
      · rw [Bool.not_eq_true] at hbp
        rw [hbp, Bool.false_and, Bool.false_and]
    rw [List.filter_congr hcong]
    rw [filter_key_bound_single g.gid (sortByKey docData) k ek hnd hmem hbek]
    simp [hg]
  · rfl

/-- The C8 counterexample document: two derived datasets of one generator,
created from the sources `"x"` and `"xy"` with output suffix `"z"`; the
output names sort as `"xyz" < "xz"`, reversing the source-name order. -/
def dataC8 : List (String × DocEntry) :=
  [("xyz", DocEntry.filtered ⟨7, "xy", -1, none⟩),
   ("xz", DocEntry.filtered ⟨7, "x", -1, none⟩)]

/-- The generator of the C8 counterexample. -/
def genC8 : GenState := ⟨7, -1, "x>0", ["x", "xy"], "", "z", false, false, []⟩

/-- C8 counterexample: the single emitted statement lists the bound source
names as `['xy', 'x']` — the order of the sorted output names `"xyz", "xz"` —
which is not the sorted source-name order `['x', 'xy']`, refuting the claim
that the statement lists the bound source names sorted by name. -/
theorem C8_counterexample_names_not_sorted :
    boundNameins 7 (sortByKey dataC8) = ["xy", "x"] ∧
    emittedFilterStatements (fun _ => genC8) dataC8
      = [(7, "FilterDatasets('x>0', ['xy', 'x'], suffix='z')\n")] ∧
    "FilterDatasets('x>0', ['xy', 'x'], suffix='z')\n"
      ≠ "FilterDatasets('x>0', ['x', 'xy'], suffix='z')\n" := by
  decide

/-- The C8 witness document: the two bound datasets of the counterexample
plus an unrelated plain dataset. -/
def dataC8w : List (String × DocEntry) :=
  [("b_f", DocEntry.filtered ⟨3, "b", -1, none⟩),
   ("a_f", DocEntry.filtered ⟨3, "a", -1, none⟩),
   ("c", DocEntry.plain (DatasetV.text ⟨["t"]⟩))]

/-- The generator of the C8 witness. -/
def genC8w : GenState := ⟨3, -1, "a>1", ["a", "b"], "", "_f", false, true, []⟩

/-- C8 witness: the amended theorem instantiated on a document where two
derived datasets share one generator. -/
theorem C8_single_emission_witness : C8Prop (fun _ => genC8w) dataC8w genC8w :=
  C8_single_emission (fun _ => genC8w) dataC8w genC8w rfl (by decide) (by decide)

/-- C10: the mapping `do` returns is the fresh generator's `outdatasets`,
which is empty at the moment `do` returns — `do` binds the derived datasets
and bumps the document version (once per input name) but never runs the
generator's recomputation, so the generator still carries the never-computed
changeset -1 and an empty cache. -/
theorem C10_do_returns_empty_mapping (op : OpState) (gid : Nat) (doc : Doc) :
    (opDo op gid doc).returned = [] ∧
    (opDo op gid doc).returned.length = 0 ∧
    (opDo op gid doc).gen.changeset = -1 ∧
    (opDo op gid doc).gen.outdatasets = [] ∧
    (opDo op gid doc).doc.changeset = doc.changeset + op.indatasets.length := by
  refine ⟨rfl, rfl, rfl, rfl, ?_⟩
  exact doLoop_doc_changeset gid op.prefx op.suffx op.indatasets [] doc
